import Mathlib

/-!
Verification of `src/changelog_builder.py`, a small script that derives a
semantic-version bump from commit messages and appends changelog entries.

Strings are modelled as Lean `String` / `List Char`; Python integers as `Int`
(with `Nat` where the domain is non-negative); fallible Python code (raising
exceptions) as `Option` / `Except`; the external `git` invocations and the
process environment as explicit inputs; prints and file writes as an explicit
effect trace.
-/

namespace ChangelogBuilder

/-! ### Decimal digits

Helpers mirroring Python's rendering of non-negative integers (`str(n)`,
as produced by f-strings) and the evaluation of digit strings.
-/

/-- Numeric value of a decimal digit character ('0' = 48). -/
def digitVal (c : Char) : Nat := c.toNat - 48

/-- The decimal digit character for `m` (meaningful for `m < 10`). -/
def digCh (m : Nat) : Char := Char.ofNat (48 + m)

/-- Value of a digit string continuing from accumulated value `i`. -/
def strValFrom (i : Nat) (l : List Char) : Nat :=
  l.foldl (fun a c => a * 10 + digitVal c) i

/-- Value of a decimal digit string. -/
def strVal (l : List Char) : Nat := strValFrom 0 l

/-- Fuel-driven decimal rendering: digits of `n` followed by `acc`.
Mirrors how Python renders a non-negative integer in an f-string. -/
def natDigitsCore : Nat → Nat → List Char → List Char
  | 0, _, acc => acc
  | fuel + 1, n, acc =>
    if n < 10 then digCh (n % 10) :: acc
    else natDigitsCore fuel (n / 10) (digCh (n % 10) :: acc)

/-- Decimal rendering of a non-negative integer, without leading zeros. -/
def natDigits (n : Nat) : List Char := natDigitsCore (n + 1) n []

/-- Python `str` of an integer: a minus sign for negatives, then the digits. -/
def intChars (i : Int) : List Char :=
  if i < 0 then '-' :: natDigits i.natAbs else natDigits i.natAbs

/-! ### Python string primitives used by the script -/

/-- Python `s.split(".")` (the separator is the single character `'.'`):
the list of maximal dot-free pieces; `"".split(".")` is `[""]`. -/
def splitOnDot : List Char → List (List Char)
  | [] => [[]]
  | c :: rest =>
    if c = '.' then [] :: splitOnDot rest
    else
      match splitOnDot rest with
      | [] => [[c]]
      | p :: ps => (c :: p) :: ps

/-- Inverse of `splitOnDot`: rejoin pieces with a dot between them. -/
def joinDot : List (List Char) → List Char
  | [] => []
  | [x] => x
  | x :: xs => x ++ '.' :: joinDot xs

/-- Python `str.splitlines` restricted to the line breaks that can occur in
`git` output: `"\r\n"`, `"\r"` and `"\n"`; no empty trailing line for a
terminating line break. (Python also breaks on rarer Unicode boundaries such
as `"\x0b"`; those never occur in this program's inputs and are not modelled.) -/
def splitlines : List Char → List (List Char)
  | [] => []
  | '\r' :: '\n' :: rest => [] :: splitlines rest
  | '\r' :: rest => [] :: splitlines rest
  | '\n' :: rest => [] :: splitlines rest
  | c :: rest =>
    match splitlines rest with
    | [] => [[c]]
    | p :: ps => (c :: p) :: ps

/-- Python `str.strip()` with no argument: remove leading and trailing
whitespace (as `int()` does before parsing). -/
def pyStrip (l : List Char) : List Char :=
  (((l.dropWhile Char.isWhitespace).reverse).dropWhile Char.isWhitespace).reverse

/-- Parse the remainder of a Python integer literal body after its first
digit: further digits, where a single underscore may separate two digits. -/
def pyDigitsRest (acc : Nat) : List Char → Option Nat
  | [] => some acc
  | c :: rest =>
    if c = '_' then
      match rest with
      | [] => none
      | c2 :: rest2 =>
        if c2.isDigit then pyDigitsRest (acc * 10 + digitVal c2) rest2 else none
    else if c.isDigit then pyDigitsRest (acc * 10 + digitVal c) rest
    else none

/-- Body of a Python integer literal: a digit, then `pyDigitsRest`. -/
def pyIntNat : List Char → Option Nat
  | [] => none
  | c :: rest => if c.isDigit then pyDigitsRest (digitVal c) rest else none

/-- Python `int(s)` on a string: strip whitespace, optional single sign,
then ASCII decimal digits (single underscores allowed between digits);
`none` models the `ValueError` Python raises otherwise. (Python also accepts
non-ASCII Unicode digits; the script never produces them and they are not
modelled.) -/
def pyInt (s : List Char) : Option Int :=
  match pyStrip s with
  | [] => none
  | c :: rest =>
    if c = '-' then (pyIntNat rest).map (fun n => -(n : Int))
    else if c = '+' then (pyIntNat rest).map (fun n => (n : Int))
    else (pyIntNat (c :: rest)).map (fun n => (n : Int))

/-- Is `needle` a contiguous sublist of `hay`? -/
def isSubChars (needle : List Char) : List Char → Bool
  | [] => needle.isEmpty
  | c :: rest => needle.isPrefixOf (c :: rest) || isSubChars needle rest

/-- Python's `in` operator on strings: substring containment. -/
def pyContains (needle hay : String) : Bool :=
  isSubChars needle.data hay.data

/-! ### The source functions -/

/-- Does `l` match the regex `v\d+\.\d+\.\d+` in full (ASCII digits)? -/
def semverStrict (l : List Char) : Bool :=
  match l with
  | [] => false
  | c :: rest =>
    (c == 'v') &&
      match splitOnDot rest with
      | [x, y, z] =>
        !x.isEmpty && x.all Char.isDigit &&
        !y.isEmpty && y.all Char.isDigit &&
        !z.isEmpty && z.all Char.isDigit
      | _ => false

/-- `validate_semantic_version` (lines 24-31): Python
`re.match(r"^v\d+\.\d+\.\d+$", tag)`, where `$` also matches just before a
single trailing newline. -/
def validate_semantic_version (tag : String) : Bool :=
  semverStrict tag.data ||
    (tag.data.getLast? == some '\n' && semverStrict tag.data.dropLast)

/-- `determine_version_increment` (lines 53-66): scan the commit pairs in
order; the first commit whose message contains `"BREAKING CHANGE"`, then
`"feat"`/`"feature"`, then `"fix"` decides the result; default `"patch"`. -/
def determine_version_increment : List (String × String) → String
  | [] => "patch"
  | (_, message) :: rest =>
    if pyContains "BREAKING CHANGE" message then "major"
    else if pyContains "feat" message || pyContains "feature" message then "minor"
    else if pyContains "fix" message then "patch"
    else determine_version_increment rest

/-- The classification of one commit message, as the spec words it: the rules
are tried in the fixed order breaking change, feature, fix; `none` when the
message matches no rule. -/
def commitRuleKind (message : String) : Option String :=
  if pyContains "BREAKING CHANGE" message then some "major"
  else if pyContains "feat" message || pyContains "feature" message then some "minor"
  else if pyContains "fix" message then some "patch"
  else none

/-- Render `f"v{major}.{minor}.{patch}"` over Python integers
(line 104 of the source). -/
def formatVersionInt (major minor patch : Int) : String :=
  String.mk ('v' :: (intChars major ++ '.' :: (intChars minor ++ '.' :: intChars patch)))

/-- Render the canonical tag `v{major}.{minor}.{patch}` over non-negative
components. -/
def formatVersion (major minor patch : Nat) : String :=
  String.mk ('v' :: (natDigits major ++ '.' :: (natDigits minor ++ '.' :: natDigits patch)))

/-- `increment_version` (lines 85-104): strip leading `'v'`s, split on dots,
convert the three pieces with `int()`, bump the component selected by
`version_type` (an unknown `version_type` bumps nothing), and re-render.
`none` models the `ValueError` Python raises when the split does not yield
exactly three int-convertible pieces. -/
def increment_version (version : String) (version_type : String) : Option String :=
  match splitOnDot (version.data.dropWhile (· == 'v')) with
  | [x, y, z] =>
    match pyInt x, pyInt y, pyInt z with
    | some major, some minor, some patch =>
      if version_type = "major" then some (formatVersionInt (major + 1) 0 0)
      else if version_type = "minor" then some (formatVersionInt major (minor + 1) 0)
      else if version_type = "patch" then some (formatVersionInt major minor (patch + 1))
      else some (formatVersionInt major minor patch)
    | _, _, _ => none
  | _ => none

/-- The core tag parser the spec's VersionParser names: validate the tag
against the semantic-version pattern (`validate_semantic_version`), then
extract the three components positionally exactly as line 92 of the source
does (`map(int, version.lstrip("v").split("."))`). `none` models the
`FormatError` for a tag that does not match the pattern. -/
def parse_tag (tag : String) : Option (Int × Int × Int) :=
  if validate_semantic_version tag then
    match splitOnDot (tag.data.dropWhile (· == 'v')) with
    | [x, y, z] =>
      match pyInt x, pyInt y, pyInt z with
      | some major, some minor, some patch => some (major, minor, patch)
      | _, _, _ => none
    | _ => none
  else none

/-! ### The orchestration layer

The external `git` invocations are modelled by their outcomes, supplied as
inputs: a successful run carries the captured stdout, a failed run (non-zero
exit with `check=True`) carries the `stderr` text and the `str()` rendering of
the raised `CalledProcessError`. Prints and file writes become an explicit
trace of effects.
-/

/-- Outcome of one `subprocess.run(..., check=True)` invocation. -/
structure ProcFailure where
  stderr : String
  msg : String
deriving DecidableEq

/-- Result of an external tool invocation: captured stdout, or a failure. -/
inductive ProcResult (α : Type) where
  | ok (out : α)
  | fail (f : ProcFailure)
deriving DecidableEq

/-- The Python exceptions that can cross function boundaries in this script. -/
inductive PyError where
  | valueError (msg : String)
  | processError (f : ProcFailure)
  | indexError (msg : String)
deriving DecidableEq

/-- Python `str()` of an exception, as printed by `print(f"Error: {e}")`. -/
def errStr : PyError → String
  | .valueError m => m
  | .processError f => f.msg
  | .indexError m => m

/-- Observable side effects of the script. -/
inductive Effect where
  | printOut (s : String)
  | gitTag (tag : String)
  | gitPushTag (tag : String)
  | fileAppend (chunks : List String)
  | gitAdd (path : String)
  | gitCommit (msg : String)
  | gitPushBranch (branch : String)
deriving DecidableEq

/-- `get_latest_tag` (lines 4-22): split the stdout of
`git tag --sort=-v:refname` into lines; no lines raises
`ValueError("No tags found in the repository.")` (not caught by the handler,
which only catches `CalledProcessError`); otherwise return the first line.
A failed invocation prints the stderr and re-raises. -/
def get_latest_tag (res : ProcResult String) :
    List Effect × Except PyError String :=
  match res with
  | .ok stdout =>
    match splitlines stdout.data with
    | [] => ([], .error (.valueError "No tags found in the repository."))
    | t :: _ => ([], .ok (String.mk t))
  | .fail f =>
    ([.printOut ("Error fetching tags: " ++ f.stderr)], .error (.processError f))

/-- Python `commit.split(" ", 1)`: the piece before the first space, and,
when a space exists, the remainder after it. -/
def pySplitOnce : List Char → List Char × Option (List Char)
  | [] => ([], none)
  | c :: rest =>
    if c = ' ' then ([], some rest)
    else
      match pySplitOnce rest with
      | (a, b) => (c :: a, b)

/-- One line of `git log --pretty=format:%h %s` as the source's comprehension
reads it: `(commit.split(" ", 1)[0], commit.split(" ", 1)[1])`. A line with
no space makes the `[1]` raise an `IndexError`. -/
def parseLogLine (l : List Char) : Except PyError (String × String) :=
  match pySplitOnce l with
  | (h, some m) => .ok (String.mk h, String.mk m)
  | (_, none) => .error (.indexError "list index out of range")

/-- The source's list comprehension over the log lines: left to right, the
first line whose parse raises stops the whole comprehension with that
exception. -/
def parseLogLines : List (List Char) → Except PyError (List (String × String))
  | [] => .ok []
  | l :: rest =>
    match parseLogLine l with
    | .error e => .error e
    | .ok q =>
      match parseLogLines rest with
      | .error e => .error e
      | .ok qs => .ok (q :: qs)

/-- `get_commits_from_pr` (lines 33-51): split the log stdout into lines and
each line at its first space. A failed invocation prints the stderr and
returns the empty list (the `CalledProcessError` is swallowed). -/
def get_commits_from_pr (res : ProcResult String) :
    List Effect × Except PyError (List (String × String)) :=
  match res with
  | .ok stdout => ([], parseLogLines (splitlines stdout.data))
  | .fail f => ([.printOut ("Error fetching commits: " ++ f.stderr)], .ok [])

/-- The bullet line written for one commit (line 83 of the source). -/
def bulletLine (base_url : String) (p : String × String) : String :=
  "- [" ++ p.1 ++ "](" ++ (base_url ++ "/" ++ p.1) ++ "): " ++ p.2 ++ "\n"

/-- The per-commit write loop of `update_changelog` (lines 81-83). -/
def changelogLoop (base_url : String) : List (String × String) → List String
  | [] => []
  | p :: rest => bulletLine base_url p :: changelogLoop base_url rest

/-- `update_changelog` (lines 68-83), modelled as the list of strings written
(appended) to the changelog file, in order: the section header, then one
bullet per commit. `githubRepoEnv` is the value of the `GITHUB_REPOSITORY`
environment variable (`none` when unset). -/
def update_changelog (githubRepoEnv : Option String)
    (commits : List (String × String)) (from_tag to_tag : String) :
    List String :=
  let github_repo := githubRepoEnv.getD "unknown/repo"
  let base_url := "https://github.com/" ++ github_repo ++ "/commit"
  ("\n## Changes from " ++ from_tag ++ " to " ++ to_tag ++ "\n\n")
    :: changelogLoop base_url commits

/-- The inputs the script's run depends on: the outcomes of its seven
external `git` invocations and the `GITHUB_REPOSITORY` environment variable. -/
structure GitEnv where
  logResult : ProcResult String
  tagListResult : ProcResult String
  tagCmdResult : ProcResult Unit
  pushTagResult : ProcResult Unit
  addResult : ProcResult Unit
  commitResult : ProcResult Unit
  pushBranchResult : ProcResult Unit
  githubRepository : Option String

/-- `generate_pr_based_changelog` (lines 106-141), as the effect trace of one
run. The `try` body runs until an exception escapes; the `except Exception`
handler prints `Error: {e}` and the function returns. Each `git` invocation is
recorded as an effect even when it fails (the command did run). -/
def generate_pr_based_changelog (env : GitEnv)
    (base_branch pr_branch : String) : List Effect :=
  match get_commits_from_pr env.logResult with
  | (e1, .error e) => e1 ++ [.printOut ("Error: " ++ errStr e)]
  | (e1, .ok commits) =>
    if commits.isEmpty then
      e1 ++ [.printOut ("No commits found between " ++ base_branch ++ " and "
              ++ pr_branch ++ ".")]
    else
      match get_latest_tag env.tagListResult with
      | (e2, .error e) => e1 ++ e2 ++ [.printOut ("Error: " ++ errStr e)]
      | (e2, .ok from_tag) =>
        if !validate_semantic_version from_tag then
          e1 ++ e2 ++ [.printOut ("Latest tag: " ++ from_tag),
            .printOut ("Error: Latest tag " ++ from_tag ++ " is not valid.")]
        else
          match increment_version from_tag (determine_version_increment commits) with
          | none =>
            -- unreachable for a validated tag: the `int()` conversion failed
            e1 ++ e2 ++ [.printOut ("Latest tag: " ++ from_tag),
              .printOut ("Error: invalid literal for int() with base 10")]
          | some new_tag =>
            match env.tagCmdResult with
            | .fail f =>
              e1 ++ e2 ++ [.printOut ("Latest tag: " ++ from_tag),
                .printOut ("New tag: " ++ new_tag), .gitTag new_tag,
                .printOut ("Error: " ++ f.msg)]
            | .ok _ =>
              match env.pushTagResult with
              | .fail f =>
                e1 ++ e2 ++ [.printOut ("Latest tag: " ++ from_tag),
                  .printOut ("New tag: " ++ new_tag), .gitTag new_tag,
                  .gitPushTag new_tag, .printOut ("Error: " ++ f.msg)]
              | .ok _ =>
                match env.addResult with
                | .fail f =>
                  e1 ++ e2 ++ [.printOut ("Latest tag: " ++ from_tag),
                    .printOut ("New tag: " ++ new_tag), .gitTag new_tag,
                    .gitPushTag new_tag,
                    .fileAppend (update_changelog env.githubRepository commits
                      from_tag new_tag),
                    .gitAdd "changelog.md", .printOut ("Error: " ++ f.msg)]
                | .ok _ =>
                  match env.commitResult with
                  | .fail f =>
                    e1 ++ e2 ++ [.printOut ("Latest tag: " ++ from_tag),
                      .printOut ("New tag: " ++ new_tag), .gitTag new_tag,
                      .gitPushTag new_tag,
                      .fileAppend (update_changelog env.githubRepository commits
                        from_tag new_tag),
                      .gitAdd "changelog.md",
                      .gitCommit ("Update changelog for " ++ new_tag),
                      .printOut ("Error: " ++ f.msg)]
                  | .ok _ =>
                    match env.pushBranchResult with
                    | .fail f =>
                      e1 ++ e2 ++ [.printOut ("Latest tag: " ++ from_tag),
                        .printOut ("New tag: " ++ new_tag), .gitTag new_tag,
                        .gitPushTag new_tag,
                        .fileAppend (update_changelog env.githubRepository
                          commits from_tag new_tag),
                        .gitAdd "changelog.md",
                        .gitCommit ("Update changelog for " ++ new_tag),
                        .gitPushBranch base_branch,
                        .printOut ("Error: " ++ f.msg)]
                    | .ok _ =>
                      e1 ++ e2 ++ [.printOut ("Latest tag: " ++ from_tag),
                        .printOut ("New tag: " ++ new_tag), .gitTag new_tag,
                        .gitPushTag new_tag,
                        .fileAppend (update_changelog env.githubRepository
                          commits from_tag new_tag),
                        .gitAdd "changelog.md",
                        .gitCommit ("Update changelog for " ++ new_tag),
                        .gitPushBranch base_branch,
                        .printOut ("Changelog updated and tag " ++ new_tag
                          ++ " pushed.")]

/-- Recognizers for the effect kinds, used to state trace properties. -/
def isGitTagEff : Effect → Bool
  | .gitTag _ => true
  | _ => false

def isGitPushTagEff : Effect → Bool
  | .gitPushTag _ => true
  | _ => false

def isFileAppendEff : Effect → Bool
  | .fileAppend _ => true
  | _ => false

def isGitAddEff : Effect → Bool
  | .gitAdd _ => true
  | _ => false

def isGitCommitEff : Effect → Bool
  | .gitCommit _ => true
  | _ => false

def isGitPushBranchEff : Effect → Bool
  | .gitPushBranch _ => true
  | _ => false

/-! ### Character and digit lemmas -/

theorem ne_of_digit {c : Char} (h : c.isDigit = true) {d : Char}
    (hd : d.isDigit = false) : c ≠ d := by
  intro he
  rw [he, hd] at h
  exact Bool.noConfusion h

theorem ws_false_of_digit {c : Char} (h : c.isDigit = true) :
    c.isWhitespace = false := by
  cases hw : c.isWhitespace
  · rfl
  · exfalso
    simp only [Char.isWhitespace, Bool.or_eq_true, decide_eq_true_eq] at hw
    rcases hw with ((rfl | rfl) | rfl) | rfl <;> exact absurd h (by decide)

theorem digCh_spec {m : Nat} (h : m < 10) :
    (digCh m).isDigit = true ∧ digitVal (digCh m) = m := by
  interval_cases m <;> exact ⟨by decide, by decide⟩

/-! ### Decimal rendering lemmas -/

theorem natDigitsCore_append (fuel : Nat) :
    ∀ n acc, natDigitsCore fuel n acc = natDigitsCore fuel n [] ++ acc := by
  induction fuel with
  | zero => intro n acc; simp [natDigitsCore]
  | succ fuel ih =>
    intro n acc
    by_cases h : n < 10
    · simp [natDigitsCore, h]
    · simp only [natDigitsCore, if_neg h]
      rw [ih (n / 10) (digCh (n % 10) :: acc), ih (n / 10) [digCh (n % 10)]]
      simp

theorem natDigitsCore_digits (fuel : Nat) :
    ∀ n acc, (∀ c ∈ acc, c.isDigit = true) →
      ∀ c ∈ natDigitsCore fuel n acc, c.isDigit = true := by
  induction fuel with
  | zero => intro n acc hacc; simpa [natDigitsCore] using hacc
  | succ fuel ih =>
    intro n acc hacc
    have hmem : ∀ c ∈ digCh (n % 10) :: acc, c.isDigit = true := by
      intro c hc
      rcases List.mem_cons.mp hc with rfl | hc
      · exact (digCh_spec (Nat.mod_lt n (by decide))).1
      · exact hacc c hc
    by_cases h : n < 10
    · simpa [natDigitsCore, h] using hmem
    · simp only [natDigitsCore, if_neg h]
      exact ih (n / 10) _ hmem

theorem natDigitsCore_ne_nil (fuel n : Nat) :
    natDigitsCore (fuel + 1) n [] ≠ [] := by
  by_cases h : n < 10
  · simp [natDigitsCore, h]
  · simp only [natDigitsCore, if_neg h]
    rw [natDigitsCore_append]
    simp

theorem strValFrom_append (i : Nat) (l₁ l₂ : List Char) :
    strValFrom i (l₁ ++ l₂) = strValFrom (strValFrom i l₁) l₂ := by
  simp [strValFrom, List.foldl_append]

theorem natDigitsCore_val (fuel : Nat) :
    ∀ n i, n < fuel →
      strValFrom i (natDigitsCore fuel n []) =
        i * 10 ^ (natDigitsCore fuel n []).length + n := by
  induction fuel with
  | zero => intro n i h; exact absurd h (Nat.not_lt_zero n)
  | succ fuel ih =>
    intro n i h
    by_cases h10 : n < 10
    · simp only [natDigitsCore, if_pos h10, Nat.mod_eq_of_lt h10]
      simp [strValFrom, (digCh_spec h10).2, pow_one]
    · simp only [natDigitsCore, if_neg h10]
      rw [natDigitsCore_append]
      have hrec : n / 10 < fuel := by omega
      have hd := (digCh_spec (m := n % 10) (Nat.mod_lt n (by decide))).2
      rw [strValFrom_append, ih (n / 10) i hrec]
      have hmod : n / 10 * 10 + n % 10 = n := by omega
      calc (i * 10 ^ (natDigitsCore fuel (n / 10) []).length + n / 10) * 10
            + digitVal (digCh (n % 10))
          = i * (10 ^ (natDigitsCore fuel (n / 10) []).length * 10)
            + (n / 10 * 10 + n % 10) := by rw [hd]; ring
        _ = i * 10 ^ ((natDigitsCore fuel (n / 10) []).length + 1) + n := by
            rw [hmod, pow_succ]
        _ = i * 10 ^ (natDigitsCore fuel (n / 10) [] ++ [digCh (n % 10)]).length
            + n := by simp

theorem natDigits_ne_nil (n : Nat) : natDigits n ≠ [] :=
  natDigitsCore_ne_nil n n

theorem natDigits_digits (n : Nat) : ∀ c ∈ natDigits n, c.isDigit = true :=
  natDigitsCore_digits (n + 1) n [] (by simp)

theorem strVal_natDigits (n : Nat) : strVal (natDigits n) = n := by
  have := natDigitsCore_val (n + 1) n 0 (Nat.lt_succ_self n)
  simpa [strVal, natDigits] using this

theorem natDigits_head (n : Nat) :
    ∃ c cs, natDigits n = c :: cs ∧ c.isDigit = true := by
  cases hd : natDigits n with
  | nil => exact absurd hd (natDigits_ne_nil n)
  | cons c cs => exact ⟨c, cs, rfl, natDigits_digits n c (by rw [hd]; simp)⟩

/-! ### splitOnDot lemmas -/

theorem splitOnDot_ne_nil (l : List Char) : splitOnDot l ≠ [] := by
  cases l with
  | nil => simp [splitOnDot]
  | cons c rest =>
    by_cases h : c = '.'
    · simp [splitOnDot, h]
    · simp only [splitOnDot, if_neg h]
      cases splitOnDot rest <;> simp

theorem splitOnDot_no_dot (l : List Char) (h : ∀ c ∈ l, c ≠ '.') :
    splitOnDot l = [l] := by
  induction l with
  | nil => rfl
  | cons c rest ih =>
    have hc : c ≠ '.' := h c (by simp)
    have hr := ih (fun x hx => h x (List.mem_cons_of_mem _ hx))
    simp [splitOnDot, if_neg hc, hr]

theorem splitOnDot_append (a rest : List Char) (h : ∀ c ∈ a, c ≠ '.') :
    splitOnDot (a ++ '.' :: rest) = a :: splitOnDot rest := by
  induction a with
  | nil => simp [splitOnDot]
  | cons c a ih =>
    have hc : c ≠ '.' := h c (by simp)
    have ih' := ih (fun x hx => h x (List.mem_cons_of_mem _ hx))
    simp [List.cons_append, splitOnDot, if_neg hc, ih']

theorem joinDot_splitOnDot (l : List Char) : joinDot (splitOnDot l) = l := by
  induction l with
  | nil => rfl
  | cons c rest ih =>
    obtain ⟨p, ps, hps⟩ : ∃ p ps, splitOnDot rest = p :: ps := by
      cases hsp : splitOnDot rest with
      | nil => exact absurd hsp (splitOnDot_ne_nil rest)
      | cons p ps => exact ⟨p, ps, rfl⟩
    by_cases h : c = '.'
    · subst h
      rw [show splitOnDot ('.' :: rest) = [] :: splitOnDot rest by
            simp [splitOnDot], hps]
      show '.' :: joinDot (p :: ps) = '.' :: rest
      rw [← hps, ih]
    · simp only [splitOnDot, if_neg h, hps]
      cases ps with
      | nil =>
        show c :: p = c :: rest
        have hp : p = rest := by
          have := ih
          rw [hps] at this
          simpa [joinDot] using this
        rw [hp]
      | cons q qs =>
        show (c :: p) ++ '.' :: joinDot (q :: qs) = c :: rest
        have hp : p ++ '.' :: joinDot (q :: qs) = rest := by
          have := ih
          rw [hps] at this
          simpa [joinDot] using this
        simp [← hp]

theorem splitOnDot_eq_three {l x y z : List Char}
    (h : splitOnDot l = [x, y, z]) : l = x ++ '.' :: (y ++ '.' :: z) := by
  have hj := joinDot_splitOnDot l
  rw [h] at hj
  simpa [joinDot] using hj.symm

/-! ### pyStrip and pyInt lemmas -/

theorem dropWhile_ws_digits (l : List Char)
    (h : ∀ c ∈ l, c.isDigit = true) :
    l.dropWhile Char.isWhitespace = l := by
  cases l with
  | nil => rfl
  | cons c rest =>
    rw [List.dropWhile_cons, ws_false_of_digit (h c (by simp))]
    simp

theorem pyStrip_digits (l : List Char) (h : ∀ c ∈ l, c.isDigit = true) :
    pyStrip l = l := by
  unfold pyStrip
  rw [dropWhile_ws_digits l h,
    dropWhile_ws_digits l.reverse (fun c hc => h c (List.mem_reverse.mp hc)),
    List.reverse_reverse]

theorem pyStrip_digits_newline (l : List Char) (hne : l ≠ [])
    (h : ∀ c ∈ l, c.isDigit = true) :
    pyStrip (l ++ ['\n']) = l := by
  obtain ⟨c, rest, rfl⟩ := List.exists_cons_of_ne_nil hne
  unfold pyStrip
  have h1 : List.dropWhile Char.isWhitespace (c :: rest ++ ['\n'])
      = c :: (rest ++ ['\n']) := by
    rw [List.cons_append, List.dropWhile_cons, ws_false_of_digit (h c (by simp))]
    simp
  have h2 : (c :: (rest ++ ['\n'])).reverse = '\n' :: (c :: rest).reverse := by
    simp
  rw [h1, h2, List.dropWhile_cons]
  simp only [show Char.isWhitespace '\n' = true from rfl, if_true]
  rw [dropWhile_ws_digits (c :: rest).reverse
    (fun x hx => h x (List.mem_reverse.mp hx))]
  simp

theorem pyDigitsRest_cons_digit (acc : Nat) (c : Char) (rest : List Char)
    (hc : c.isDigit = true) (hcu : c ≠ '_') :
    pyDigitsRest acc (c :: rest) = pyDigitsRest (acc * 10 + digitVal c) rest := by
  unfold pyDigitsRest
  rw [if_neg hcu, if_pos hc]
  rw [pyDigitsRest.eq_def]

theorem pyDigitsRest_digits (l : List Char) :
    ∀ acc, (∀ c ∈ l, c.isDigit = true) →
      pyDigitsRest acc l = some (strValFrom acc l) := by
  induction l with
  | nil => intro acc _; rfl
  | cons c rest ih =>
    intro acc h
    have hc : c.isDigit = true := h c (by simp)
    rw [pyDigitsRest_cons_digit acc c rest hc (ne_of_digit hc (by decide)),
      ih _ (fun x hx => h x (List.mem_cons_of_mem _ hx))]
    rfl

theorem pyIntNat_digits (c : Char) (rest : List Char)
    (h : ∀ x ∈ c :: rest, x.isDigit = true) :
    pyIntNat (c :: rest) = some (strVal (c :: rest)) := by
  have hc : c.isDigit = true := h c (by simp)
  simp only [pyIntNat, hc, if_true]
  rw [pyDigitsRest_digits rest (digitVal c)
    (fun x hx => h x (List.mem_cons_of_mem _ hx))]
  simp [strVal, strValFrom]

theorem pyInt_digits (l : List Char) (hne : l ≠ [])
    (h : ∀ c ∈ l, c.isDigit = true) :
    pyInt l = some (strVal l : Int) := by
  obtain ⟨c, rest, rfl⟩ := List.exists_cons_of_ne_nil hne
  have hc : c.isDigit = true := h c (by simp)
  simp only [pyInt, pyStrip_digits _ h,
    if_neg (ne_of_digit hc (show ('-').isDigit = false by decide)),
    if_neg (ne_of_digit hc (show ('+').isDigit = false by decide))]
  rw [pyIntNat_digits c rest h]
  rfl

theorem pyInt_digits_newline (l : List Char) (hne : l ≠ [])
    (h : ∀ c ∈ l, c.isDigit = true) :
    pyInt (l ++ ['\n']) = some (strVal l : Int) := by
  obtain ⟨c, rest, rfl⟩ := List.exists_cons_of_ne_nil hne
  have hc : c.isDigit = true := h c (by simp)
  have hstrip : pyStrip (c :: (rest ++ ['\n'])) = c :: rest := by
    rw [← List.cons_append]
    exact pyStrip_digits_newline _ (by simp) h
  rw [List.cons_append]
  simp only [pyInt, hstrip,
    if_neg (ne_of_digit hc (show ('-').isDigit = false by decide)),
    if_neg (ne_of_digit hc (show ('+').isDigit = false by decide))]
  rw [pyIntNat_digits c rest h]
  rfl

/-! ### Validation, parsing and formatting lemmas -/

theorem no_dot_of_digits {l : List Char} (h : ∀ c ∈ l, c.isDigit = true) :
    ∀ c ∈ l, c ≠ '.' :=
  fun c hc => ne_of_digit (h c hc) (by decide)

theorem dropWhile_v {x r : List Char} (hx : x ≠ [])
    (hd : ∀ c ∈ x, c.isDigit = true) :
    ('v' :: (x ++ r)).dropWhile (· == 'v') = x ++ r := by
  obtain ⟨c, cs, rfl⟩ := List.exists_cons_of_ne_nil hx
  rw [List.dropWhile_cons]
  simp only [show (('v' : Char) == 'v') = true from rfl, if_true,
    List.cons_append, List.dropWhile_cons]
  have : (c == 'v') = false :=
    beq_eq_false_iff_ne.mpr (ne_of_digit (hd c (by simp)) (by decide))
  simp [this]

/-- Core extraction fact: a strict semantic-version character list splits
into its three digit groups after stripping the leading `'v'`. -/
theorem extract_pieces {x y : List Char}
    (hx : x ≠ []) (hdx : ∀ c ∈ x, c.isDigit = true)
    (hdy : ∀ c ∈ y, c.isDigit = true) :
    ∀ tail : List Char, (∀ c ∈ tail, c ≠ '.') →
      splitOnDot (('v' :: (x ++ '.' :: (y ++ '.' :: tail))).dropWhile (· == 'v'))
        = [x, y, tail] := by
  intro tail htail
  rw [dropWhile_v hx hdx, splitOnDot_append x _ (no_dot_of_digits hdx),
    splitOnDot_append y _ (no_dot_of_digits hdy), splitOnDot_no_dot tail htail]

theorem semverStrict_elim {l : List Char} (h : semverStrict l = true) :
    ∃ x y z : List Char, l = 'v' :: (x ++ '.' :: (y ++ '.' :: z)) ∧
      x ≠ [] ∧ (∀ c ∈ x, c.isDigit = true) ∧
      y ≠ [] ∧ (∀ c ∈ y, c.isDigit = true) ∧
      z ≠ [] ∧ (∀ c ∈ z, c.isDigit = true) := by
  cases l with
  | nil => exact absurd h (by decide)
  | cons c rest =>
    rcases hsp : splitOnDot rest with _ | ⟨x, _ | ⟨y, _ | ⟨z, _ | w⟩⟩⟩ <;>
      simp [semverStrict, hsp, List.all_eq_true] at h
    obtain ⟨hc, ⟨⟨⟨⟨⟨hx0, hx1⟩, hy0⟩, hy1⟩, hz0⟩, hz1⟩⟩ := h
    exact ⟨x, y, z, by rw [hc, splitOnDot_eq_three hsp], hx0, hx1, hy0, hy1,
      hz0, hz1⟩

theorem semverStrict_intro {x y z : List Char}
    (hx : x ≠ []) (hdx : ∀ c ∈ x, c.isDigit = true)
    (hy : y ≠ []) (hdy : ∀ c ∈ y, c.isDigit = true)
    (hz : z ≠ []) (hdz : ∀ c ∈ z, c.isDigit = true) :
    semverStrict ('v' :: (x ++ '.' :: (y ++ '.' :: z))) = true := by
  have hsp : splitOnDot (x ++ '.' :: (y ++ '.' :: z)) = [x, y, z] := by
    rw [splitOnDot_append x _ (no_dot_of_digits hdx),
      splitOnDot_append y _ (no_dot_of_digits hdy),
      splitOnDot_no_dot z (no_dot_of_digits hdz)]
  simp [semverStrict, hsp, List.all_eq_true, hx, hy, hz]
  exact ⟨⟨hdx, hdy⟩, hdz⟩

theorem formatVersion_data (a b c : Nat) :
    (formatVersion a b c).data
      = 'v' :: (natDigits a ++ '.' :: (natDigits b ++ '.' :: natDigits c)) := rfl

theorem validate_format (a b c : Nat) :
    validate_semantic_version (formatVersion a b c) = true := by
  unfold validate_semantic_version
  rw [formatVersion_data,
    semverStrict_intro (natDigits_ne_nil a) (natDigits_digits a)
      (natDigits_ne_nil b) (natDigits_digits b) (natDigits_ne_nil c)
      (natDigits_digits c)]
  rfl

theorem extract_format (a b c : Nat) :
    splitOnDot ((formatVersion a b c).data.dropWhile (· == 'v'))
      = [natDigits a, natDigits b, natDigits c] := by
  rw [formatVersion_data]
  exact extract_pieces (natDigits_ne_nil a) (natDigits_digits a)
    (natDigits_digits b) _ (no_dot_of_digits (natDigits_digits c))

theorem pyInt_natDigits (n : Nat) : pyInt (natDigits n) = some (n : Int) := by
  rw [pyInt_digits (natDigits n) (natDigits_ne_nil n) (natDigits_digits n),
    strVal_natDigits]

theorem intChars_ofNat (n : Nat) : intChars (n : Int) = natDigits n := by
  unfold intChars
  rw [if_neg (not_lt.mpr (Int.natCast_nonneg n))]
  simp

theorem formatVersionInt_ofNat (a b c : Nat) :
    formatVersionInt (a : Int) (b : Int) (c : Int) = formatVersion a b c := by
  unfold formatVersionInt formatVersion
  rw [intChars_ofNat, intChars_ofNat, intChars_ofNat]

theorem parse_format (a b c : Nat) :
    parse_tag (formatVersion a b c) = some ((a : Int), (b : Int), (c : Int)) := by
  unfold parse_tag
  rw [if_pos (validate_format a b c), extract_format]
  simp only [pyInt_natDigits]

theorem increment_version_format (a b c : Nat) (t : String) :
    increment_version (formatVersion a b c) t =
      if t = "major" then some (formatVersion (a + 1) 0 0)
      else if t = "minor" then some (formatVersion a (b + 1) 0)
      else if t = "patch" then some (formatVersion a b (c + 1))
      else some (formatVersion a b c) := by
  unfold increment_version
  rw [extract_format]
  simp only [pyInt_natDigits]
  have ha : ((a : Int) + 1) = ((a + 1 : Nat) : Int) := by push_cast; ring
  have hb : ((b : Int) + 1) = ((b + 1 : Nat) : Int) := by push_cast; ring
  have hc : ((c : Int) + 1) = ((c + 1 : Nat) : Int) := by push_cast; ring
  by_cases h1 : t = "major"
  · rw [if_pos h1, if_pos h1, ha]
    exact congrArg some (formatVersionInt_ofNat (a + 1) 0 0)
  · rw [if_neg h1, if_neg h1]
    by_cases h2 : t = "minor"
    · rw [if_pos h2, if_pos h2, hb]
      exact congrArg some (formatVersionInt_ofNat a (b + 1) 0)
    · rw [if_neg h2, if_neg h2]
      by_cases h3 : t = "patch"
      · rw [if_pos h3, if_pos h3, hc]
        exact congrArg some (formatVersionInt_ofNat a b (c + 1))
      · rw [if_neg h3, if_neg h3]
        exact congrArg some (formatVersionInt_ofNat a b c)

theorem parse_tag_some_of_validate {tag : String}
    (h : validate_semantic_version tag = true) :
    ∃ v, parse_tag tag = some v := by
  unfold parse_tag
  rw [if_pos h]
  unfold validate_semantic_version at h
  rw [Bool.or_eq_true] at h
  rcases h with hs | hnl
  · obtain ⟨x, y, z, heq, hx, hdx, hy, hdy, hz, hdz⟩ := semverStrict_elim hs
    rw [heq, extract_pieces hx hdx hdy z (no_dot_of_digits hdz)]
    simp only [pyInt_digits x hx hdx, pyInt_digits y hy hdy,
      pyInt_digits z hz hdz]
    exact ⟨_, rfl⟩
  · rw [Bool.and_eq_true] at hnl
    obtain ⟨hlast, hstrict⟩ := hnl
    have hlast' : tag.data.getLast? = some '\n' := by simpa using hlast
    have hne : tag.data ≠ [] := by
      intro h0
      rw [h0] at hlast'
      exact Option.noConfusion hlast'
    have hconcat : tag.data.dropLast ++ ['\n'] = tag.data := by
      have hg : tag.data.getLast hne = '\n' := by
        have := List.getLast?_eq_getLast tag.data hne
        rw [hlast'] at this
        exact (Option.some.injEq _ _).mp this.symm
      rw [← hg]
      exact List.dropLast_concat_getLast hne
    obtain ⟨x, y, z, heq, hx, hdx, hy, hdy, hz, hdz⟩ :=
      semverStrict_elim hstrict
    have hshape : tag.data
        = 'v' :: (x ++ '.' :: (y ++ '.' :: (z ++ ['\n']))) := by
      rw [← hconcat, heq]
      simp
    have htail : ∀ c ∈ z ++ ['\n'], c ≠ '.' := by
      intro c hcm
      rcases List.mem_append.mp hcm with hcm | hcm
      · exact ne_of_digit (hdz c hcm) (by decide)
      · rcases List.mem_singleton.mp hcm with rfl
        decide
    rw [hshape, extract_pieces hx hdx hdy (z ++ ['\n']) htail]
    simp only [pyInt_digits x hx hdx, pyInt_digits y hy hdy,
      pyInt_digits_newline z hz hdz]
    exact ⟨_, rfl⟩

/-! ### Classifier lemmas -/

theorem determine_eq_findSome (cs : List (String × String)) :
    determine_version_increment cs
      = (cs.findSome? (fun p => commitRuleKind p.2)).getD "patch" := by
  induction cs with
  | nil => rfl
  | cons p rest ih =>
    obtain ⟨id, m⟩ := p
    unfold determine_version_increment
    rw [List.findSome?_cons]
    by_cases h1 : pyContains "BREAKING CHANGE" m = true
    · have hk : commitRuleKind m = some "major" := by simp [commitRuleKind, h1]
      simp [h1, hk]
    · rw [Bool.not_eq_true] at h1
      by_cases h2 : (pyContains "feat" m || pyContains "feature" m) = true
      · have hk : commitRuleKind m = some "minor" := by
          simp only [commitRuleKind, h1]
          simp [h2]
        simp [h1, h2, hk]
      · rw [Bool.not_eq_true] at h2
        by_cases h3 : pyContains "fix" m = true
        · have hk : commitRuleKind m = some "patch" := by
            simp [commitRuleKind, h1, h2, h3]
          simp [h1, h2, h3, hk]
        · rw [Bool.not_eq_true] at h3
          have hk : commitRuleKind m = none := by
            simp [commitRuleKind, h1, h2, h3]
          simp [h1, h2, h3, hk, ih]

theorem determine_total (cs : List (String × String)) :
    determine_version_increment cs = "major" ∨
    determine_version_increment cs = "minor" ∨
    determine_version_increment cs = "patch" := by
  induction cs with
  | nil => right; right; rfl
  | cons p rest ih =>
    obtain ⟨id, m⟩ := p
    unfold determine_version_increment
    by_cases h1 : pyContains "BREAKING CHANGE" m = true
    · simp [h1]
    · rw [Bool.not_eq_true] at h1
      by_cases h2 : (pyContains "feat" m || pyContains "feature" m) = true
      · simp [h1, h2]
      · rw [Bool.not_eq_true] at h2
        by_cases h3 : pyContains "fix" m = true
        · simp [h1, h2, h3]
        · rw [Bool.not_eq_true] at h3
          simpa [h1, h2, h3] using ih

/-! ### Changelog lemmas -/

theorem changelogLoop_eq_map (base_url : String) (cs : List (String × String)) :
    changelogLoop base_url cs = cs.map (bulletLine base_url) := by
  induction cs with
  | nil => rfl
  | cons p rest ih => simp [changelogLoop, ih]

example : validate_semantic_version "v1.2.3" = true := by decide
example : validate_semantic_version "1.2.3" = false := by decide
example : validate_semantic_version "v1.2" = false := by decide
example : validate_semantic_version "v1.2.3.4" = false := by decide
example : validate_semantic_version "v1.2.3\n" = true := by decide
example : parse_tag "v1.2.3" = some (1, 2, 3) := by decide
example : pyContains "fix" "fix: bug" = true := by decide
example : determine_version_increment
    [("a1", "unrelated"), ("a2", "fix: bug"), ("a3", "feat: X")] = "patch" := by decide
example : increment_version "v1.2.3" "patch" = some "v1.2.4" := by decide
example : increment_version "v1.2.3" "minor" = some "v1.3.0" := by decide
example : increment_version "v1.2.3" "major" = some "v2.0.0" := by decide
example : increment_version "v1.2.3" "chore" = some "v1.2.3" := by decide

/-! ## The claims -/

/-- C1: for every ordered sequence of (identifier, message) commit pairs, the
classifier returns the kind determined by the first commit in the sequence
whose message matches any rule (default "patch" when none does), so a later,
more severe commit cannot override that earlier match; in particular on
[("a1","unrelated"), ("a2","fix: bug"), ("a3","feat: X")] it returns
"patch". -/
theorem c1_classifier_first_commit_wins :
    (∀ cs : List (String × String),
      determine_version_increment cs
        = (cs.findSome? (fun p => commitRuleKind p.2)).getD "patch") ∧
    determine_version_increment
      [("a1", "unrelated"), ("a2", "fix: bug"), ("a3", "feat: X")] = "patch" :=
  ⟨determine_eq_findSome, by decide⟩

/-- C2: for every version triple of non-negative integers, increment_version
bumps exactly the selected component ("major" resets minor and patch,
"minor" resets patch, "patch" changes only patch), with no error case over
this domain; in particular v1.2.3 goes to v1.2.4 / v1.3.0 / v2.0.0. -/
theorem c2_increment_correct :
    (∀ a b c : Nat, increment_version (formatVersion a b c) "major"
        = some (formatVersion (a + 1) 0 0)) ∧
    (∀ a b c : Nat, increment_version (formatVersion a b c) "minor"
        = some (formatVersion a (b + 1) 0)) ∧
    (∀ a b c : Nat, increment_version (formatVersion a b c) "patch"
        = some (formatVersion a b (c + 1))) ∧
    increment_version "v1.2.3" "patch" = some "v1.2.4" ∧
    increment_version "v1.2.3" "minor" = some "v1.3.0" ∧
    increment_version "v1.2.3" "major" = some "v2.0.0" := by
  refine ⟨?_, ?_, ?_, by decide, by decide, by decide⟩ <;>
    intro a b c <;> rw [increment_version_format] <;> simp

/-- C3: round-trip law: parsing the rendered tag v{major}.{minor}.{patch}
returns exactly the rendered triple. -/
theorem c3_parse_format_roundtrip :
    ∀ a b c : Nat, parse_tag (formatVersion a b c)
      = some ((a : Int), (b : Int), (c : Int)) :=
  parse_format

/-- C4: parsing a tag fails (the FormatError case, modelled as none) exactly
when the tag does not match the pattern v digits dot digits dot digits as the
source's regex check accepts it; "v1.2.3" parses while "1.2.3", "v1.2" and
"v1.2.3.4" all fail. -/
theorem c4_parse_fails_iff_pattern_mismatch :
    (∀ tag : String,
      parse_tag tag = none ↔ validate_semantic_version tag = false) ∧
    parse_tag "v1.2.3" = some (1, 2, 3) ∧
    parse_tag "1.2.3" = none ∧
    parse_tag "v1.2" = none ∧
    parse_tag "v1.2.3.4" = none := by
  refine ⟨?_, by decide, by decide, by decide, by decide⟩
  intro tag
  constructor
  · intro hnone
    cases hval : validate_semantic_version tag
    · rfl
    · obtain ⟨v, hv⟩ := parse_tag_some_of_validate hval
      rw [hv] at hnone
      exact Option.noConfusion hnone
  · intro hval
    unfold parse_tag
    rw [hval]
    simp

/-- C5: within a single commit message the rules are tried in the fixed order
breaking change, then feat/feature, then fix, and the head commit's match
decides the run; [("a1","BREAKING CHANGE: remove API"), ("a2","fix: bug")]
classifies as "major". -/
theorem c5_per_commit_rule_priority :
    (∀ id m : String, ∀ rest : List (String × String),
      pyContains "BREAKING CHANGE" m = true →
        determine_version_increment ((id, m) :: rest) = "major") ∧
    (∀ id m : String, ∀ rest : List (String × String),
      pyContains "BREAKING CHANGE" m = false →
      (pyContains "feat" m || pyContains "feature" m) = true →
        determine_version_increment ((id, m) :: rest) = "minor") ∧
    (∀ id m : String, ∀ rest : List (String × String),
      pyContains "BREAKING CHANGE" m = false →
      (pyContains "feat" m || pyContains "feature" m) = false →
      pyContains "fix" m = true →
        determine_version_increment ((id, m) :: rest) = "patch") ∧
    determine_version_increment
      [("a1", "BREAKING CHANGE: remove API"), ("a2", "fix: bug")] = "major" := by
  refine ⟨?_, ?_, ?_, by decide⟩
  · intro id m rest h
    unfold determine_version_increment
    simp [h]
  · intro id m rest h1 h2
    unfold determine_version_increment
    simp [h1, h2]
  · intro id m rest h1 h2 h3
    unfold determine_version_increment
    simp [h1, h2, h3]

/-- Witness for C5: the three rule branches at concrete commits. -/
theorem c5_per_commit_rule_priority_witness :
    determine_version_increment [("w1", "BREAKING CHANGE: x")] = "major" ∧
    determine_version_increment [("w2", "feat: x")] = "minor" ∧
    determine_version_increment [("w3", "fix: x")] = "patch" :=
  ⟨c5_per_commit_rule_priority.1 "w1" "BREAKING CHANGE: x" [] (by decide),
   c5_per_commit_rule_priority.2.1 "w2" "feat: x" [] (by decide) (by decide),
   c5_per_commit_rule_priority.2.2.1 "w3" "fix: x" [] (by decide) (by decide)
     (by decide)⟩

/-- C6: when no commit message contains any of the four keyword substrings
(including the empty sequence), the classifier returns "patch"; it is total
and always returns one of the three kinds (it never raises). -/
theorem c6_default_patch :
    (∀ cs : List (String × String),
      (∀ q ∈ cs, pyContains "BREAKING CHANGE" q.2 = false ∧
        pyContains "feat" q.2 = false ∧ pyContains "feature" q.2 = false ∧
        pyContains "fix" q.2 = false) →
      determine_version_increment cs = "patch") ∧
    determine_version_increment ([] : List (String × String)) = "patch" ∧
    (∀ cs : List (String × String),
      determine_version_increment cs = "major" ∨
      determine_version_increment cs = "minor" ∨
      determine_version_increment cs = "patch") := by
  refine ⟨?_, rfl, determine_total⟩
  intro cs h
  induction cs with
  | nil => rfl
  | cons q rest ih =>
    obtain ⟨id, m⟩ := q
    obtain ⟨h1, h2, h3, h4⟩ := h (id, m) (by simp)
    unfold determine_version_increment
    simp only [h1, h2, h3, h4]
    simpa using ih (fun q hq => h q (List.mem_cons_of_mem _ hq))

/-- Witness for C6: a sequence whose single message matches no rule. -/
theorem c6_default_patch_witness :
    determine_version_increment [("a1", "chore: cleanup")] = "patch" :=
  c6_default_patch.1 [("a1", "chore: cleanup")] (by decide)

/-- C9 (implicit): for a canonical tag and a version_type outside major,
minor, patch, increment_version re-renders the parsed components unchanged:
it is the identity on the tag and raises no error. -/
theorem c9_unknown_type_identity (a b c : Nat) (t : String)
    (h1 : t ≠ "major") (h2 : t ≠ "minor") (h3 : t ≠ "patch") :
    increment_version (formatVersion a b c) t = some (formatVersion a b c) := by
  rw [increment_version_format, if_neg h1, if_neg h2, if_neg h3]

/-- Witness for C9 at tag v1.2.3 and version_type "chore". -/
theorem c9_unknown_type_identity_witness :
    increment_version "v1.2.3" "chore" = some "v1.2.3" := by
  have h := c9_unknown_type_identity 1 2 3 "chore" (by decide) (by decide)
    (by decide)
  rw [(by decide : formatVersion 1 2 3 = "v1.2.3")] at h
  exact h

/-- C8: the changelog update appends exactly one section header of the form
given in the source, followed by one bullet line per commit pair in order,
the bullet linking identifier to base_url slash identifier, where base_url
is built from the GITHUB_REPOSITORY environment value and falls back to
"unknown/repo" when the variable is unset. -/
theorem c8_changelog_append_format :
    (∀ (env : Option String) (cs : List (String × String)) (ft tt : String),
      update_changelog env cs ft tt
        = ("\n## Changes from " ++ ft ++ " to " ++ tt ++ "\n\n")
          :: cs.map (fun q =>
            "- [" ++ q.1 ++ "]("
              ++ ("https://github.com/" ++ env.getD "unknown/repo" ++ "/commit")
              ++ "/" ++ q.1 ++ "): " ++ q.2 ++ "\n")) ∧
    (∀ (cs : List (String × String)) (ft tt : String),
      update_changelog none cs ft tt
        = ("\n## Changes from " ++ ft ++ " to " ++ tt ++ "\n\n")
          :: cs.map (fun q =>
            "- [" ++ q.1 ++ "]("
              ++ "https://github.com/unknown/repo/commit"
              ++ "/" ++ q.1 ++ "): " ++ q.2 ++ "\n")) := by
  have hmain : ∀ (env : Option String) (cs : List (String × String))
      (ft tt : String),
      update_changelog env cs ft tt
        = ("\n## Changes from " ++ ft ++ " to " ++ tt ++ "\n\n")
          :: cs.map (fun q =>
            "- [" ++ q.1 ++ "]("
              ++ ("https://github.com/" ++ env.getD "unknown/repo" ++ "/commit")
              ++ "/" ++ q.1 ++ "): " ++ q.2 ++ "\n") := by
    intro env cs ft tt
    unfold update_changelog
    dsimp only
    rw [changelogLoop_eq_map]
    refine congrArg _ (List.map_congr_left fun q _ => ?_)
    unfold bulletLine
    simp [String.append_assoc]
  exact ⟨hmain, fun cs ft tt => hmain none cs ft tt⟩

/-- C10 (implicit): when the tag listing succeeds but splits into no lines,
get_latest_tag raises ValueError "No tags found in the repository."; when it
yields at least one line, the first line is returned. -/
theorem c10_get_latest_tag (stdout : String) :
    (splitlines stdout.data = [] →
      get_latest_tag (.ok stdout)
        = ([], .error (.valueError "No tags found in the repository."))) ∧
    (∀ t ts, splitlines stdout.data = t :: ts →
      get_latest_tag (.ok stdout) = ([], .ok (String.mk t))) := by
  constructor
  · intro h
    simp only [get_latest_tag]
    rw [h]
  · intro t ts h
    simp only [get_latest_tag]
    rw [h]

/-- Witness for C10: the empty listing errors; a two-line listing returns the
first line. -/
theorem c10_get_latest_tag_witness :
    get_latest_tag (.ok "")
      = ([], .error (.valueError "No tags found in the repository.")) ∧
    get_latest_tag (.ok "v1.2.3\nv1.2.2") = ([], .ok "v1.2.3") :=
  ⟨(c10_get_latest_tag "").1 rfl,
   (c10_get_latest_tag "v1.2.3\nv1.2.2").2 "v1.2.3".data ["v1.2.2".data]
     (by decide)⟩

/-- C7: every failure of one of the seven external git invocations is fatal
for the run: nothing after the failing call is executed, no retry happens
(each invocation effect occurs at most once), and the failure is printed
whenever the failing call was reached (for each mutating call, its presence
in the trace below implies the failure print is in the trace). In particular
a failed commit-log retrieval yields exactly the failure print and the
"no commits" print, with no tagging, pushing or changelog write, and a
failed tag listing permits no git mutation at all and, when reached, yields
exactly its two failure prints. -/
theorem c7_external_failures_fatal (env : GitEnv) (b p : String)
    (f : ProcFailure) :
    (env.logResult = .fail f →
      generate_pr_based_changelog env b p
        = [.printOut ("Error fetching commits: " ++ f.stderr),
           .printOut ("No commits found between " ++ b ++ " and " ++ p
             ++ ".")]) ∧
    (env.tagListResult = .fail f →
      (generate_pr_based_changelog env b p).countP isGitTagEff = 0 ∧
      (generate_pr_based_changelog env b p).countP isGitPushTagEff = 0 ∧
      (generate_pr_based_changelog env b p).countP isFileAppendEff = 0 ∧
      (generate_pr_based_changelog env b p).countP isGitAddEff = 0 ∧
      (generate_pr_based_changelog env b p).countP isGitCommitEff = 0 ∧
      (generate_pr_based_changelog env b p).countP isGitPushBranchEff = 0) ∧
    (∀ (out : String) (q : String × String) (qs : List (String × String)),
      env.logResult = .ok out → env.tagListResult = .fail f →
      parseLogLines (splitlines out.data) = .ok (q :: qs) →
      generate_pr_based_changelog env b p
        = [.printOut ("Error fetching tags: " ++ f.stderr),
           .printOut ("Error: " ++ f.msg)]) ∧
    (env.tagCmdResult = .fail f →
      ((generate_pr_based_changelog env b p).countP isGitPushTagEff = 0 ∧
       (generate_pr_based_changelog env b p).countP isFileAppendEff = 0 ∧
       (generate_pr_based_changelog env b p).countP isGitAddEff = 0 ∧
       (generate_pr_based_changelog env b p).countP isGitCommitEff = 0 ∧
       (generate_pr_based_changelog env b p).countP isGitPushBranchEff = 0) ∧
      ((generate_pr_based_changelog env b p).countP isGitTagEff = 1 →
        Effect.printOut ("Error: " ++ f.msg)
          ∈ generate_pr_based_changelog env b p)) ∧
    (env.pushTagResult = .fail f →
      ((generate_pr_based_changelog env b p).countP isFileAppendEff = 0 ∧
       (generate_pr_based_changelog env b p).countP isGitAddEff = 0 ∧
       (generate_pr_based_changelog env b p).countP isGitCommitEff = 0 ∧
       (generate_pr_based_changelog env b p).countP isGitPushBranchEff = 0) ∧
      ((generate_pr_based_changelog env b p).countP isGitPushTagEff = 1 →
        Effect.printOut ("Error: " ++ f.msg)
          ∈ generate_pr_based_changelog env b p)) ∧
    (env.addResult = .fail f →
      ((generate_pr_based_changelog env b p).countP isGitCommitEff = 0 ∧
       (generate_pr_based_changelog env b p).countP isGitPushBranchEff = 0) ∧
      ((generate_pr_based_changelog env b p).countP isGitAddEff = 1 →
        Effect.printOut ("Error: " ++ f.msg)
          ∈ generate_pr_based_changelog env b p)) ∧
    (env.commitResult = .fail f →
      (generate_pr_based_changelog env b p).countP isGitPushBranchEff = 0 ∧
      ((generate_pr_based_changelog env b p).countP isGitCommitEff = 1 →
        Effect.printOut ("Error: " ++ f.msg)
          ∈ generate_pr_based_changelog env b p)) ∧
    (env.pushBranchResult = .fail f →
      (generate_pr_based_changelog env b p).countP isGitPushBranchEff = 1 →
        Effect.printOut ("Error: " ++ f.msg)
          ∈ generate_pr_based_changelog env b p) ∧
    ((generate_pr_based_changelog env b p).countP isGitTagEff ≤ 1 ∧
     (generate_pr_based_changelog env b p).countP isGitPushTagEff ≤ 1 ∧
     (generate_pr_based_changelog env b p).countP isFileAppendEff ≤ 1 ∧
     (generate_pr_based_changelog env b p).countP isGitAddEff ≤ 1 ∧
     (generate_pr_based_changelog env b p).countP isGitCommitEff ≤ 1 ∧
     (generate_pr_based_changelog env b p).countP isGitPushBranchEff ≤ 1) := by
  obtain ⟨lg, tl, tc, pt, ad, cm, pb, repo⟩ := env
  simp only [generate_pr_based_changelog, get_commits_from_pr, get_latest_tag]
  cases lg with
  | fail f1 =>
    simp [List.countP_cons, List.countP_nil, isGitTagEff, isGitPushTagEff,
      isFileAppendEff, isGitAddEff, isGitCommitEff, isGitPushBranchEff]
    intro h
    rw [h]
  | ok out1 =>
    cases hm : parseLogLines (splitlines out1.data) with
    | error e =>
      simp [hm, List.countP_cons, List.countP_nil, isGitTagEff, isGitPushTagEff,
        isFileAppendEff, isGitAddEff, isGitCommitEff, isGitPushBranchEff]
      intro out qa qb qqs h1 h2 h3
      subst h1
      rw [hm] at h3
      exact Except.noConfusion h3
    | ok commits =>
      cases commits with
      | nil =>
        simp [hm, List.countP_cons, List.countP_nil, isGitTagEff,
          isGitPushTagEff, isFileAppendEff, isGitAddEff, isGitCommitEff,
          isGitPushBranchEff]
        intro out qa qb qqs h1 h2 h3
        subst h1
        rw [hm] at h3
        simp at h3
      | cons q qs =>
        cases tl with
        | fail f2 =>
          simp [hm, List.countP_cons, List.countP_nil, isGitTagEff,
            isGitPushTagEff, isFileAppendEff, isGitAddEff, isGitCommitEff,
            isGitPushBranchEff]
          intro out qa qb qqs h1 h2 h3
          rw [h2]
          exact ⟨rfl, rfl⟩
        | ok out2 =>
          cases hsl : splitlines out2.data with
          | nil =>
            simp [hm, hsl, List.countP_cons, List.countP_nil, isGitTagEff,
              isGitPushTagEff, isFileAppendEff, isGitAddEff, isGitCommitEff,
              isGitPushBranchEff]
          | cons t ts =>
            cases hv : validate_semantic_version (String.mk t) with
            | false =>
              simp [hm, hsl, hv, List.countP_cons, List.countP_nil, isGitTagEff,
                isGitPushTagEff, isFileAppendEff, isGitAddEff, isGitCommitEff,
                isGitPushBranchEff]
            | true =>
              simp only [hm, hsl, hv, Bool.not_true, Bool.false_eq_true,
                if_false, Bool.true_eq_false]
              cases hi : increment_version (String.mk t)
                  (determine_version_increment (q :: qs)) with
              | none =>
                simp [hm, hsl, hv, hi, List.countP_cons, List.countP_nil, isGitTagEff,
                  isGitPushTagEff, isFileAppendEff, isGitAddEff,
                  isGitCommitEff, isGitPushBranchEff]
              | some new_tag =>
                cases tc with
                | fail f3 =>
                  simp [hm, hsl, hv, hi, List.countP_cons, List.countP_nil, isGitTagEff,
                    isGitPushTagEff, isFileAppendEff, isGitAddEff,
                    isGitCommitEff, isGitPushBranchEff]
                  intro h
                  rw [h]
                  simp
                | ok u3 =>
                  cases pt with
                  | fail f4 =>
                    simp [hm, hsl, hv, hi, List.countP_cons, List.countP_nil, isGitTagEff,
                      isGitPushTagEff, isFileAppendEff, isGitAddEff,
                      isGitCommitEff, isGitPushBranchEff]
                    intro h
                    rw [h]
                    simp
                  | ok u4 =>
                    cases ad with
                    | fail f5 =>
                      simp [hm, hsl, hv, hi, List.countP_cons, List.countP_nil, isGitTagEff,
                        isGitPushTagEff, isFileAppendEff, isGitAddEff,
                        isGitCommitEff, isGitPushBranchEff]
                      intro h
                      rw [h]
                      simp
                    | ok u5 =>
                      cases cm with
                      | fail f6 =>
                        simp [hm, hsl, hv, hi, List.countP_cons, List.countP_nil, isGitTagEff,
                          isGitPushTagEff, isFileAppendEff, isGitAddEff,
                          isGitCommitEff, isGitPushBranchEff]
                        intro h
                        rw [h]
                        simp
                      | ok u6 =>
                        cases pb with
                        | fail f7 =>
                          simp [hm, hsl, hv, hi, List.countP_cons, List.countP_nil,
                            isGitTagEff, isGitPushTagEff, isFileAppendEff,
                            isGitAddEff, isGitCommitEff, isGitPushBranchEff]
                          intro h
                          rw [h]
                          simp
                        | ok u7 =>
                          simp [hm, hsl, hv, hi, List.countP_cons, List.countP_nil,
                            isGitTagEff, isGitPushTagEff, isFileAppendEff,
                            isGitAddEff, isGitCommitEff, isGitPushBranchEff]

/-- Witness for C7: a failed commit-log retrieval produces exactly the two
prints, a failed tag listing (reached through one commit) produces exactly
its two failure prints, and a failed changelog commit produces no branch
push. -/
theorem c7_external_failures_fatal_witness :
    generate_pr_based_changelog
      ⟨.fail ⟨"boom", "Command returned non-zero exit status 1."⟩,
       .ok "v1.0.0", .ok (), .ok (), .ok (), .ok (), .ok (), none⟩
      "develop" "feature/x"
      = [.printOut "Error fetching commits: boom",
         .printOut "No commits found between develop and feature/x."] ∧
    generate_pr_based_changelog
      ⟨.ok "abc fix: bug",
       .fail ⟨"boom", "Command returned non-zero exit status 1."⟩,
       .ok (), .ok (), .ok (), .ok (), .ok (), none⟩
      "develop" "feature/x"
      = [.printOut "Error fetching tags: boom",
         .printOut "Error: Command returned non-zero exit status 1."] ∧
    (generate_pr_based_changelog
      ⟨.ok "abc fix: bug", .ok "v1.2.3", .ok (), .ok (), .ok (),
       .fail ⟨"boom", "Command returned non-zero exit status 1."⟩, .ok (),
       none⟩
      "develop" "feature/x").countP isGitPushBranchEff = 0 :=
  ⟨(c7_external_failures_fatal _ "develop" "feature/x"
      ⟨"boom", "Command returned non-zero exit status 1."⟩).1 rfl,
   (c7_external_failures_fatal _ "develop" "feature/x"
      ⟨"boom", "Command returned non-zero exit status 1."⟩).2.2.1
      "abc fix: bug" ("abc", "fix: bug") [] rfl rfl rfl,
   ((c7_external_failures_fatal _ "develop" "feature/x"
      ⟨"boom", "Command returned non-zero exit status 1."⟩).2.2.2.2.2.2.1
      rfl).1⟩

end ChangelogBuilder
